import Mathlib

/-
  Verification of the durablews resilient WebSocket client core
  (src/client.ts) against its natural-language specification.

  The embedding models the client's pure decision logic: socket
  readyState observation, the send/enqueue/drop branching, the
  onopen queue drain, the onmessage parse fallback, the onclose
  reconnect scheduling, the isReady promise attachment, the
  listener-registry forEach/splice dynamics, and the module-level
  createClient singleton.
-/

namespace DurableWS

/-- The four readyState values of the underlying host WebSocket
    (CONNECTING = 0, OPEN = 1, CLOSING = 2, CLOSED = 3). The client's
    `ws` variable is `Option ReadyState`: `none` models `ws === null`. -/
inductive ReadyState where
  | CONNECTING
  | OPEN
  | CLOSING
  | CLOSED
deriving DecidableEq

/-- The derived connection states of the client (`WebSocketClientState`
    from types.ts, as used by `getStatus`). -/
inductive WebSocketClientState where
  | DISCONNECTED
  | CONNECTING
  | CONNECTED
  | CLOSING
  | CLOSED
deriving DecidableEq

/-- `getStatus` from client.ts lines 184-200: pure read of the derived
    state; `DISCONNECTED` when no socket exists, otherwise the switch
    over `ws.readyState`. -/
def getStatus : Option ReadyState → WebSocketClientState
  | none => .DISCONNECTED
  | some .CONNECTING => .CONNECTING
  | some .OPEN => .CONNECTED
  | some .CLOSING => .CLOSING
  | some .CLOSED => .CLOSED

mutual
/-- JSON-serializable values (the OutboundMessage payloads and parsed
    inbound frames). A mutual inductive is used so that recursion over
    arrays and objects is structural. -/
inductive Json where
  | null
  | bool (b : Bool)
  | num (n : Int)
  | str (s : String)
  | arr (elems : JsonList)
  | obj (fields : JsonFields)

/-- Element list of a JSON array. -/
inductive JsonList where
  | nil
  | cons (hd : Json) (tl : JsonList)

/-- Key/value field list of a JSON object. -/
inductive JsonFields where
  | nil
  | cons (key : String) (val : Json) (tl : JsonFields)
end

/-- Escaping of quote and backslash inside JSON string output (the
    control-character escapes of the host JSON.stringify are omitted;
    no claim depends on them). -/
def Json.escapeString (s : String) : String :=
  String.join (s.toList.map (fun c =>
    if c = '"' ∨ c = '\\' then "\\" ++ String.singleton c else String.singleton c))

mutual
/-- The host JSON.stringify, restricted to the modelled value space.
    `send` and the onopen drain write `JSON.stringify(message)` frames. -/
def Json.stringify : Json → String
  | .null => "null"
  | .bool true => "true"
  | .bool false => "false"
  | .num n => toString n
  | .str s => "\"" ++ Json.escapeString s ++ "\""
  | .arr xs => "[" ++ String.intercalate "," (Json.stringifyList xs) ++ "]"
  | .obj kvs => "\x7b" ++ String.intercalate "," (Json.stringifyFields kvs) ++ "\x7d"

/-- stringify over the elements of a JSON array. -/
def Json.stringifyList : JsonList → List String
  | .nil => []
  | .cons x xs => Json.stringify x :: Json.stringifyList xs

/-- stringify over the fields of a JSON object. -/
def Json.stringifyFields : JsonFields → List String
  | .nil => []
  | .cons k v kvs =>
      ("\"" ++ Json.escapeString k ++ "\":" ++ Json.stringify v) :: Json.stringifyFields kvs
end

/-- JavaScript truthiness of a JSON value (the onopen drain guards on
    `if (message && ...)`): null, false, 0 and the empty string are
    falsy; arrays and objects are always truthy. -/
def Json.truthy : Json → Bool
  | .null => false
  | .bool b => b
  | .num n => n != 0
  | .str s => s != ""
  | .arr _ => true
  | .obj _ => true

/-- Modelled from the spec: `$queuePush` from ../../stores (not under
    src/); spec section 4.2 "push(msg) appends". The eviction check is
    done by the caller in `send`, so the store push itself is a plain
    append to the back. -/
def queuePush (q : List Json) (m : Json) : List Json :=
  q ++ [m]

/-- Modelled from the spec: `$queueShift` from ../../stores (not under
    src/); spec section 4.2 "shift() removes and returns the oldest
    entry, or signals empty". -/
def queueShift (q : List Json) : Option Json × List Json :=
  match q with
  | [] => (none, [])
  | x :: xs => (some x, xs)

/-- Modelled from the spec: `$queueUnshift` from ../../stores (not under
    src/); spec section 4.2 "unshift(msg) re-inserts an entry at the
    front". -/
def queueUnshift (m : Json) (q : List Json) : List Json :=
  m :: q

/-- Outcome of one `send` call: the frames written to the wire (already
    serialized) and the resulting outbound queue. `send` never throws,
    so the result type has no error case. -/
structure SendResult where
  wire : List String
  queue : List Json

/-- `send` from client.ts lines 139-150: write immediately when the
    socket readyState is OPEN; otherwise, when the readyState is not
    CLOSED (including `ws === null`, whose `ws?.readyState` is
    undefined), push onto the queue and evict the oldest entry if the
    length now exceeds `maxQueueSize`; when CLOSED, silently drop. -/
def send (maxQueueSize : Nat) (ws : Option ReadyState) (q : List Json) (message : Json) :
    SendResult :=
  if ws = some ReadyState.OPEN then
    { wire := [Json.stringify message], queue := q }
  else if ws ≠ some ReadyState.CLOSED then
    let q1 := queuePush q message
    { wire := [], queue := if maxQueueSize < q1.length then (queueShift q1).2 else q1 }
  else
    { wire := [], queue := q }

/-- `reconnectTimeouts` from client.ts lines 34-37:
    `Array.from({length: maxReconnectAttempts}, (_, i) => Math.pow(2, i) * 1000)`. -/
def reconnectTimeouts (maxAttempts : Nat) : List Nat :=
  (List.range maxAttempts).map (fun i => 2 ^ i * 1000)

/-- Outcome of the `ws.onclose` handler: the scheduled reconnect (delay
    in time units, next attempt index) when one is scheduled, and the
    publication of the "close" event. -/
structure CloseResult where
  reconnect : Option (Nat × Nat)
  closePublished : Bool
deriving DecidableEq

/-- `ws.onclose` from client.ts lines 118-132: schedule
    `reconnect(attempt + 1)` after `reconnectTimeouts[attempt]` iff the
    socket handle is non-null, its readyState is not CLOSED, the attempt
    index is below `maxReconnectAttempts - 1`, and the closure code is
    not 1000; the "close" event is published in every case. -/
def wsOnclose (maxReconnectAttempts : Nat) (ws : Option ReadyState) (attempt code : Nat) :
    CloseResult :=
  { reconnect :=
      match ws with
      | some rs =>
          if rs ≠ ReadyState.CLOSED ∧ attempt < maxReconnectAttempts - 1 ∧ code ≠ 1000 then
            some ((reconnectTimeouts maxReconnectAttempts).getD attempt 0, attempt + 1)
          else none
      | none => none,
    closePublished := true }

/-- Outcome of the `ws.onopen` drain: serialized frames written to the
    wire in order, the queue left behind, and the publication of the
    "open" event. -/
structure OpenResult where
  wire : List String
  queue : List Json
  openPublished : Bool

/-- The drain loop of `ws.onopen` (client.ts lines 74-93): while the
    queue is nonempty, shift the front message; if the message is truthy
    and the socket readyState is OPEN at that moment, write
    `JSON.stringify(message)`; otherwise the thrown error is caught, the
    message is unshifted back to the front, and draining stops.
    `canSend i` is the observation `ws?.readyState === WebSocket.OPEN`
    at the i-th iteration. -/
def drainLoop (canSend : Nat → Bool) : Nat → List Json → List String × List Json
  | _, [] => ([], [])
  | i, m :: rest =>
    if m.truthy && canSend i then
      let r := drainLoop canSend (i + 1) rest
      (Json.stringify m :: r.1, r.2)
    else
      ([], queueUnshift m rest)

/-- `ws.onopen` from client.ts lines 73-96: drain the queue, then
    publish "open" to listeners unconditionally (the only throw inside
    the loop is caught, so the handler always reaches the publish). -/
def wsOnopen (canSend : Nat → Bool) (q : List Json) : OpenResult :=
  let r := drainLoop canSend 0 q
  { wire := r.1, queue := r.2, openPublished := true }

/-- Payload of an inbound frame: a primitive text frame, or a non-text
    (binary) payload such as a Blob or ArrayBuffer. -/
inductive WireData where
  | text (s : String)
  | binary

/-- Outcome of the `ws.onmessage` handler: either the message listeners
    are notified with a value, or the frame is dropped with only a
    console diagnostic. -/
inductive MessageOutcome where
  | notified (v : Json)
  | dropped

/-- The raw-text fallback wrapper `{ data: event.data }` published when
    JSON parsing fails on a textual payload. -/
def wrapRaw (s : String) : Json :=
  Json.obj (JsonFields.cons "data" (Json.str s) JsonFields.nil)

/-- `ws.onmessage` from client.ts lines 98-116, parameterized by the
    host's `JSON.parse` on strings (`parse s = none` models a parse
    throw). A non-text payload is coerced by JSON.parse to a tag string
    such as "[object Blob]", which never parses, and then fails the
    `typeof event.data === "string"` test, so it is dropped. A textual
    payload that fails to parse is republished as the raw wrapper only
    when it passes the `event?.data &&` truthiness test, i.e. only when
    it is non-empty. -/
def wsOnmessage (parse : String → Option Json) : WireData → MessageOutcome
  | .text s =>
      match parse s with
      | some j => .notified j
      | none => if s ≠ "" then .notified (wrapRaw s) else .dropped
  | .binary => .dropped

/-- Accumulating decimal-numeral parser over a character list: fails on
    the empty input and on any non-digit character. -/
def parseDigits : List Char → Option Nat → Option Nat
  | [], acc => acc
  | c :: cs, acc =>
      if '0' ≤ c ∧ c ≤ '9' then
        parseDigits cs (some ((acc.getD 0) * 10 + (c.toNat - ('0').toNat)))
      else none

/-- A small honest fragment of the host JSON.parse: accepts the JSON
    literals null/true/false and nonnegative integer numerals, and fails
    on everything else. In particular, like the host parser, it fails on
    the empty string. -/
def jsonParseLit (s : String) : Option Json :=
  if s = "null" then some Json.null
  else if s = "true" then some (Json.bool true)
  else if s = "false" then some (Json.bool false)
  else (parseDigits s.toList none).map (fun n => Json.num (Int.ofNat n))

/-- The two socket events that a pending isReady promise listens for. -/
inductive SocketEvent where
  | opened
  | errored

/-- How a settled isReady promise settled. -/
inductive Settle where
  | resolve
  | reject

/-- What `isReady()` did at call time: resolved immediately, attached
    once-listeners to the current socket, or (when `ws === null`)
    attached nothing, leaving the promise forever pending. -/
inductive IsReadyOutcome where
  | resolvedNow
  | pendingOnSocket
  | neverSettles
deriving DecidableEq

/-- `isReady` from client.ts lines 173-182: resolve immediately when the
    readyState is OPEN; otherwise `ws?.addEventListener` attaches
    once-listeners for "open" (resolve) and "error" (reject) — which,
    when `ws` is null, attaches nothing at all. -/
def isReady : Option ReadyState → IsReadyOutcome
  | some ReadyState.OPEN => .resolvedNow
  | some _ => .pendingOnSocket
  | none => .neverSettles

/-- How the isReady promise settles when the socket subsequently fires
    an event: an already-resolved promise stays resolved; a pending one
    resolves on "open" and rejects on "error"; a promise with no
    attached listeners never settles. -/
def settlesOn : IsReadyOutcome → SocketEvent → Option Settle
  | .resolvedNow, _ => some .resolve
  | .pendingOnSocket, .opened => some .resolve
  | .pendingOnSocket, .errored => some .reject
  | .neverSettles, _ => none

/-- The unsubscribe closure returned by onMessage/onError/onOpen/onClose/
    onIdle (client.ts lines 210-258): `indexOf` the listener identity and
    `splice` it out when found — i.e. remove the first occurrence. -/
def removeFirst : List Nat → Nat → List Nat
  | [], _ => []
  | x :: xs, y => if x = y then xs else x :: removeFirst xs y

/-- The unsubscriptions a listener performs during its own invocation,
    applied in order to the live listener array. -/
def applyUnsubs (arr : List Nat) (ids : List Nat) : List Nat :=
  ids.foldl removeFirst arr

/-- JavaScript `Array.prototype.forEach` over the live listener array,
    as used by every publish site (`listeners.kind.forEach(...)`): visit
    index k while k is below the array's current length, invoke the
    listener stored there (which may splice the array via `act`), then
    advance to k + 1. Returns (listeners invoked in order, final array).
    The fuel argument bounds the iteration count; the initial length is
    always enough fuel because the array never grows during a pass. -/
def forEachRun (act : Nat → List Nat) : Nat → Nat → List Nat → List Nat × List Nat
  | 0, _, arr => ([], arr)
  | fuel + 1, k, arr =>
    if h : k < arr.length then
      let l := arr.get ⟨k, h⟩
      let r := forEachRun act fuel (k + 1) (applyUnsubs arr (act l))
      (l :: r.1, r.2)
    else ([], arr)

/-- One publish pass over the listener registry. -/
def jsForEach (act : Nat → List Nat) (arr : List Nat) : List Nat × List Nat :=
  forEachRun act arr.length 0 arr

/-- A listener behavior in which listener 0 unsubscribes itself during
    its own invocation and every other listener unsubscribes nothing. -/
def cexAct : Nat → List Nat :=
  fun n => if n = 0 then [0] else []

/-- The recognized configuration options of `createClient`
    (WebSocketClientConfig from types.ts as read by client.ts):
    `none` models an omitted option. -/
structure WebSocketClientConfig where
  url : String
  maxQueueSize : Option Nat
  maxReconnectAttempts : Option Nat
  idleTimeout : Option Nat
  autoConnect : Option Bool

/-- JavaScript `config.x || d` defaulting: both an omitted option and a
    falsy (zero) value fall back to the default. -/
def orDefault : Option Nat → Nat → Nat
  | some n, d => if n = 0 then d else n
  | none, d => d

/-- The client value built by the first `createClient` call: the
    config-derived parameters captured by its closures. -/
structure ClientInstance where
  url : String
  maxQueueSize : Nat
  maxReconnectAttempts : Nat
  reconnectTimeoutsList : List Nat
  idleTimeoutDuration : Nat

/-- Side effects performed by a `createClient` call: starting the idle
    timer, adding the window activity listeners, fetching a token, and
    opening a socket via `connect()`. -/
structure CreateEffects where
  idleTimerStarted : Bool
  activityListenersAdded : Bool
  tokenFetched : Bool
  socketOpened : Bool
deriving DecidableEq

/-- The absence of side effects. -/
def noEffects : CreateEffects :=
  { idleTimerStarted := false, activityListenersAdded := false,
    tokenFetched := false, socketOpened := false }

/-- `createClient` from client.ts lines 21-279 as a transition on the
    module-level `instance` variable (line 19): when an instance already
    exists it is returned immediately and nothing else runs; otherwise a
    new instance is built from the config, the idle timer and activity
    listeners are installed, a token is fetched when none is stored, and
    `connect()` opens a socket unless `autoConnect === false`. Returns
    (returned client, new value of `instance`, effects performed). -/
def createClient (inst : Option ClientInstance) (tokenPresent : Bool)
    (config : WebSocketClientConfig) : ClientInstance × Option ClientInstance × CreateEffects :=
  match inst with
  | some i => (i, some i, noEffects)
  | none =>
      let c : ClientInstance :=
        { url := config.url,
          maxQueueSize := orDefault config.maxQueueSize 10,
          maxReconnectAttempts := orDefault config.maxReconnectAttempts 5,
          reconnectTimeoutsList := reconnectTimeouts (orDefault config.maxReconnectAttempts 5),
          idleTimeoutDuration := orDefault config.idleTimeout (5 * 60 * 1000) }
      (c, some c,
        { idleTimerStarted := true, activityListenersAdded := true,
          tokenFetched := !tokenPresent,
          socketOpened := config.autoConnect ≠ some false })

/-!  Helper lemmas  -/

/-- Indexing the precomputed backoff schedule inside its bounds yields
    the exponential backoff value. -/
theorem reconnectTimeouts_getD (n i : Nat) (h : i < n) :
    (reconnectTimeouts n).getD i 0 = 2 ^ i * 1000 := by
  have hlen : i < (reconnectTimeouts n).length := by
    simpa [reconnectTimeouts] using h
  rw [List.getD_eq_getElem _ _ hlen]
  simp [reconnectTimeouts, h]

/-- The `shift()` store operation returns the tail of the queue as the
    remaining queue. -/
theorem queueShift_snd (q : List Json) : (queueShift q).2 = q.tail := by
  cases q <;> rfl

/-!  Claim theorems  -/

/-- Claim C6 (confirmed): the precomputed backoff schedule has length
    `maxAttempts`, its i-th entry is `2 ^ i * 1000` for every index in
    bounds, and for `maxReconnectAttempts = 5` it equals
    [1000, 2000, 4000, 8000, 16000]. -/
theorem c6_backoff_schedule (maxAttempts i : Nat) (h : i < maxAttempts) :
    (reconnectTimeouts maxAttempts).length = maxAttempts ∧
    (reconnectTimeouts maxAttempts).getD i 0 = 2 ^ i * 1000 ∧
    reconnectTimeouts 5 = [1000, 2000, 4000, 8000, 16000] :=
  ⟨by simp [reconnectTimeouts], reconnectTimeouts_getD maxAttempts i h, rfl⟩

/-- Witness for C6 at maxAttempts = 5, i = 3. -/
theorem c6_backoff_schedule_witness :
    (reconnectTimeouts 5).length = 5 ∧ (reconnectTimeouts 5).getD 3 0 = 8000 := by
  have h := c6_backoff_schedule 5 3 (by decide)
  exact ⟨h.1, by simpa using h.2.1⟩

/-- Claim C1 (confirmed): for every socket handle state, `send` writes
    the message immediately as serialized JSON when the derived state is
    Connected; enqueues it under the drop-oldest bound when the state is
    neither Connected nor Closed; and silently drops it (no enqueue, no
    write) when the state is Closed. The model is total: no branch of
    `send` has an error outcome, so no error is raised synchronously. -/
theorem c1_send_by_state (maxQ : Nat) (ws : Option ReadyState) (q : List Json) (m : Json) :
    (getStatus ws = WebSocketClientState.CONNECTED →
      send maxQ ws q m = { wire := [Json.stringify m], queue := q }) ∧
    (getStatus ws ≠ WebSocketClientState.CONNECTED →
      getStatus ws ≠ WebSocketClientState.CLOSED →
      send maxQ ws q m =
        { wire := [],
          queue :=
            if maxQ < (queuePush q m).length then (queueShift (queuePush q m)).2
            else queuePush q m }) ∧
    (getStatus ws = WebSocketClientState.CLOSED →
      send maxQ ws q m = { wire := [], queue := q }) := by
  rcases ws with _ | rs
  · exact ⟨fun h => by simp [getStatus] at h, fun _ _ => rfl,
      fun h => by simp [getStatus] at h⟩
  · cases rs <;>
      exact ⟨fun h => by first | rfl | simp [getStatus] at h,
        fun h1 h2 => by first | rfl | simp [getStatus] at h1 h2,
        fun h => by first | rfl | simp [getStatus] at h⟩

/-- Witness for C1 covering the three branches: Connected (immediate
    serialized write), Disconnected with no socket (enqueue), Closed
    (silent drop). -/
theorem c1_send_by_state_witness :
    send 10 (some ReadyState.OPEN) [] (Json.bool true) = { wire := ["true"], queue := [] } ∧
    send 10 none [] (Json.bool true) = { wire := [], queue := [Json.bool true] } ∧
    send 10 (some ReadyState.CLOSED) [Json.null] (Json.bool true) =
      { wire := [], queue := [Json.null] } := by
  refine ⟨?_, ?_, ?_⟩
  · exact (c1_send_by_state 10 (some ReadyState.OPEN) [] (Json.bool true)).1 rfl
  · have h := (c1_send_by_state 10 none [] (Json.bool true)).2.1 (by decide) (by decide)
    simpa [queuePush] using h
  · exact (c1_send_by_state 10 (some ReadyState.CLOSED) [Json.null] (Json.bool true)).2.2 rfl

/-- Claim C2 counterexample: the claim says a closure on an already
    non-open socket never schedules a reconnect, but the code only
    blocks scheduling when the readyState is CLOSED. A socket observed
    in the CLOSING state (non-open) with abnormal code 1006 at attempt 0
    and maxReconnectAttempts 5 does get a reconnect scheduled, after
    1000 time units with the attempt counter advanced to 1. -/
theorem c2_onclose_counterexample :
    (wsOnclose 5 (some ReadyState.CLOSING) 0 1006).reconnect = some (1000, 1) ∧
    ReadyState.CLOSING ≠ ReadyState.OPEN := by
  exact ⟨rfl, by decide⟩

/-- Claim C2 (corrected): on a close event, no reconnect is scheduled
    when the socket handle is null, or its readyState is CLOSED (rather
    than "non-open" as claimed), or the code is 1000, or attempts are
    exhausted; otherwise exactly one reconnect is scheduled after the
    backoff duration for the current attempt index with the counter
    advanced by one; and "close" is published in every case. -/
theorem c2_onclose_amended (maxAtt : Nat) (ws : Option ReadyState) (attempt code : Nat) :
    (wsOnclose maxAtt ws attempt code).closePublished = true ∧
    (ws = none ∨ ws = some ReadyState.CLOSED ∨ code = 1000 ∨ maxAtt - 1 ≤ attempt →
      (wsOnclose maxAtt ws attempt code).reconnect = none) ∧
    (∀ rs, ws = some rs → rs ≠ ReadyState.CLOSED → code ≠ 1000 → attempt < maxAtt - 1 →
      (wsOnclose maxAtt ws attempt code).reconnect =
        some (2 ^ attempt * 1000, attempt + 1)) := by
  refine ⟨rfl, ?_, ?_⟩
  · intro h
    rcases ws with _ | rs
    · rfl
    · show (if rs ≠ ReadyState.CLOSED ∧ attempt < maxAtt - 1 ∧ code ≠ 1000 then
          some ((reconnectTimeouts maxAtt).getD attempt 0, attempt + 1) else none) = none
      rw [if_neg]
      rintro ⟨h1, h2, h3⟩
      rcases h with h | h | h | h
      · exact Option.noConfusion h
      · exact h1 (by injection h)
      · exact h3 h
      · omega
  · rintro rs rfl hrs hcode hatt
    have hlt : attempt < maxAtt := by omega
    show (if rs ≠ ReadyState.CLOSED ∧ attempt < maxAtt - 1 ∧ code ≠ 1000 then
        some ((reconnectTimeouts maxAtt).getD attempt 0, attempt + 1) else none) = _
    rw [if_pos ⟨hrs, hatt, hcode⟩, reconnectTimeouts_getD maxAtt attempt hlt]

/-- Witness for C2 (amended) at concrete inputs: a CLOSED socket blocks
    the reconnect, an OPEN socket with abnormal code at attempt 0 of 5
    schedules one after 1000 units advancing the counter to 1, and close
    is always published. -/
theorem c2_onclose_amended_witness :
    (wsOnclose 5 (some ReadyState.CLOSED) 0 1006).reconnect = none ∧
    (wsOnclose 5 (some ReadyState.OPEN) 0 1006).reconnect = some (1000, 1) ∧
    (wsOnclose 5 (some ReadyState.OPEN) 0 1006).closePublished = true := by
  refine ⟨(c2_onclose_amended 5 (some ReadyState.CLOSED) 0 1006).2.1 (by simp), ?_,
    (c2_onclose_amended 5 (some ReadyState.OPEN) 0 1006).1⟩
  have h := (c2_onclose_amended 5 (some ReadyState.OPEN) 0 1006).2.2 ReadyState.OPEN rfl
    (by decide) (by decide) (by decide)
  simpa using h

/-- Claim C5 (confirmed): the queue length never exceeds `maxQueueSize`
    after any `send` completes (given it was within the bound before),
    and enqueuing 11 messages with maxQueueSize = 10 from an empty queue
    (socket CONNECTING, so every send enqueues) leaves exactly the last
    10 in FIFO order, evicting the first. -/
theorem c5_queue_bound :
    (∀ (maxQ : Nat) (ws : Option ReadyState) (q : List Json) (m : Json),
      q.length ≤ maxQ → ((send maxQ ws q m).queue).length ≤ maxQ) ∧
    (∀ ms : List Json, ms.length = 11 →
      List.foldl (fun q m => (send 10 (some ReadyState.CONNECTING) q m).queue) [] ms =
        ms.drop 1) := by
  constructor
  · intro maxQ ws q m h
    unfold send
    split
    · simpa using h
    · split
      · simp only [queuePush]
        split
        · rename_i hgt
          rw [queueShift_snd]
          simp at hgt ⊢
          omega
        · rename_i hle
          simp at hle ⊢
          omega
      · simpa using h
  · intro ms hlen
    rcases ms with _ | ⟨a1, ms⟩; · simp at hlen
    rcases ms with _ | ⟨a2, ms⟩; · simp at hlen
    rcases ms with _ | ⟨a3, ms⟩; · simp at hlen
    rcases ms with _ | ⟨a4, ms⟩; · simp at hlen
    rcases ms with _ | ⟨a5, ms⟩; · simp at hlen
    rcases ms with _ | ⟨a6, ms⟩; · simp at hlen
    rcases ms with _ | ⟨a7, ms⟩; · simp at hlen
    rcases ms with _ | ⟨a8, ms⟩; · simp at hlen
    rcases ms with _ | ⟨a9, ms⟩; · simp at hlen
    rcases ms with _ | ⟨a10, ms⟩; · simp at hlen
    rcases ms with _ | ⟨a11, ms⟩; · simp at hlen
    rcases ms with _ | ⟨a12, ms⟩
    · simp [send, queuePush, queueShift]
    · simp at hlen

/-- Witness for C5: a send within the bound stays within it, and 11
    concrete pushes with bound 10 keep the last 10. -/
theorem c5_queue_bound_witness :
    ((send 10 (some ReadyState.CONNECTING) [] (Json.bool true)).queue).length ≤ 10 ∧
    List.foldl (fun q m => (send 10 (some ReadyState.CONNECTING) q m).queue) []
        (List.replicate 11 (Json.bool true)) =
      (List.replicate 11 (Json.bool true)).drop 1 := by
  exact ⟨c5_queue_bound.1 10 (some ReadyState.CONNECTING) [] (Json.bool true) (by simp),
    c5_queue_bound.2 (List.replicate 11 (Json.bool true)) (by simp)⟩

/-- Claim C7 counterexample: the claim says an unparseable textual
    payload is republished as a raw-text wrapper, but an empty text
    frame fails the `event?.data &&` truthiness test and is dropped:
    the host JSON.parse fails on "" (as the modelled parser does), the
    payload is textual, yet the handler notifies no listener. -/
theorem c7_onmessage_counterexample :
    jsonParseLit "" = none ∧
    wsOnmessage jsonParseLit (WireData.text "") = MessageOutcome.dropped ∧
    MessageOutcome.dropped ≠ MessageOutcome.notified (wrapRaw "") :=
  ⟨rfl, rfl, fun h => MessageOutcome.noConfusion h⟩

/-- Claim C7 (corrected): for every parse behavior and inbound payload,
    a payload that parses is published parsed; a textual payload that
    fails to parse is republished as the raw-text wrapper only when it
    is non-empty; an unparseable empty text frame, and every non-text
    payload, is dropped with only a local diagnostic; and the handler is
    total, so no fault is thrown out of it. -/
theorem c7_onmessage_amended (parse : String → Option Json) (d : WireData) :
    (∀ s j, d = WireData.text s → parse s = some j →
      wsOnmessage parse d = MessageOutcome.notified j) ∧
    (∀ s, d = WireData.text s → parse s = none → s ≠ "" →
      wsOnmessage parse d = MessageOutcome.notified (wrapRaw s)) ∧
    (∀ s, d = WireData.text s → parse s = none → s = "" →
      wsOnmessage parse d = MessageOutcome.dropped) ∧
    (d = WireData.binary → wsOnmessage parse d = MessageOutcome.dropped) := by
  refine ⟨?_, ?_, ?_, ?_⟩
  · rintro s j rfl hp
    simp [wsOnmessage, hp]
  · rintro s rfl hp hs
    simp [wsOnmessage, hp, hs]
  · rintro s rfl hp rfl
    simp [wsOnmessage, hp]
  · rintro rfl
    rfl

/-- Witness for C7 (amended): a parsing literal is published parsed, and
    a non-empty unparseable string is republished as the raw wrapper. -/
theorem c7_onmessage_amended_witness :
    wsOnmessage jsonParseLit (WireData.text "true") = MessageOutcome.notified (Json.bool true) ∧
    wsOnmessage jsonParseLit (WireData.text "nope") =
      MessageOutcome.notified (wrapRaw "nope") := by
  constructor
  · exact (c7_onmessage_amended jsonParseLit (WireData.text "true")).1 "true"
      (Json.bool true) rfl rfl
  · exact (c7_onmessage_amended jsonParseLit (WireData.text "nope")).2.1 "nope" rfl rfl
      (by decide)

/-- Claim C9 counterexample: the claim says that from every client state
    the isReady future eventually resolves or rejects once the socket
    reaches Connected or errors, but when no socket exists (a reachable
    state: `autoConnect: false` before `connect()`), `ws?.addEventListener`
    attaches nothing, so the future settles on no subsequent event. -/
theorem c9_isReady_counterexample :
    getStatus none = WebSocketClientState.DISCONNECTED ∧
    isReady none = IsReadyOutcome.neverSettles ∧
    settlesOn (isReady none) SocketEvent.opened = none ∧
    settlesOn (isReady none) SocketEvent.errored = none :=
  ⟨rfl, rfl, rfl, rfl⟩

/-- Claim C9 (corrected): isReady resolves immediately when a socket
    exists and is Connected; when a socket exists in any other state it
    attaches once-listeners so the future resolves on that socket's next
    open and rejects on its next error; but when no socket exists the
    future never settles. -/
theorem c9_isReady_amended (rs : ReadyState) (h : rs ≠ ReadyState.OPEN) :
    isReady (some ReadyState.OPEN) = IsReadyOutcome.resolvedNow ∧
    isReady (some rs) = IsReadyOutcome.pendingOnSocket ∧
    settlesOn IsReadyOutcome.pendingOnSocket SocketEvent.opened = some Settle.resolve ∧
    settlesOn IsReadyOutcome.pendingOnSocket SocketEvent.errored = some Settle.reject ∧
    (∀ ev, settlesOn (isReady none) ev = none) := by
  refine ⟨rfl, ?_, rfl, rfl, fun ev => by cases ev <;> rfl⟩
  cases rs
  · rfl
  · exact absurd rfl h
  · rfl
  · rfl

/-- Witness for C9 (amended) at a CONNECTING socket. -/
theorem c9_isReady_amended_witness :
    isReady (some ReadyState.CONNECTING) = IsReadyOutcome.pendingOnSocket ∧
    settlesOn (isReady none) SocketEvent.opened = none :=
  ⟨(c9_isReady_amended ReadyState.CONNECTING (by decide)).2.1,
   (c9_isReady_amended ReadyState.CONNECTING (by decide)).2.2.2.2 SocketEvent.opened⟩

/-- Claim C10 (confirmed): once an instance exists, every later
    createClient call returns exactly the stored instance, leaves the
    module-level instance unchanged, and performs no effects — no idle
    timer, no activity listeners, no token fetch, no socket — whatever
    configuration and token state the later call is given. -/
theorem c10_createClient_idempotent :
    (∀ (c1 : WebSocketClientConfig) (t1 : Bool) (c2 : WebSocketClientConfig) (t2 : Bool),
      createClient (createClient none t1 c1).2.1 t2 c2 =
        ((createClient none t1 c1).1, (createClient none t1 c1).2.1, noEffects)) ∧
    (∀ (i : ClientInstance) (t : Bool) (c : WebSocketClientConfig),
      createClient (some i) t c = (i, some i, noEffects)) :=
  ⟨fun _ _ _ _ => rfl, fun _ _ _ => rfl⟩

/-- Draining a queue whose messages are all truthy with a socket that
    stays OPEN at every write writes every message in FIFO order, as
    serialized JSON, and empties the queue. -/
theorem drainLoop_all (canSend : Nat → Bool) :
    ∀ (q : List Json) (i : Nat),
      (∀ m ∈ q, m.truthy = true) →
      (∀ j, j < q.length → canSend (i + j) = true) →
      drainLoop canSend i q = (q.map Json.stringify, [])
  | [], _, _, _ => rfl
  | m :: rest, i, ht, hs => by
    have hm : m.truthy = true := ht m (List.mem_cons_self m rest)
    have hci : canSend i = true := by
      have h0 := hs 0 (by simp)
      simpa using h0
    have ih := drainLoop_all canSend rest (i + 1)
      (fun x hx => ht x (List.mem_cons_of_mem m hx))
      (fun j hj => by
        have h1 := hs (j + 1) (by simp; omega)
        have e : i + (j + 1) = i + 1 + j := by omega
        rwa [e] at h1)
    simp [drainLoop, hm, hci, ih]

/-- Draining a queue stops at the first failed write: the writes before
    index k succeed, the write at k fails (untruthy message or socket
    not OPEN at that moment), nothing past k is attempted, and the
    failed message is put back at the front of the remaining queue. -/
theorem drainLoop_fail (canSend : Nat → Bool) :
    ∀ (q : List Json) (i k : Nat) (hk : k < q.length),
      (∀ j (hj : j < k), ((q.get ⟨j, hj.trans hk⟩).truthy && canSend (i + j)) = true) →
      ((q.get ⟨k, hk⟩).truthy && canSend (i + k)) = false →
      drainLoop canSend i q = ((q.take k).map Json.stringify, q.drop k)
  | [], _, _, hk, _, _ => absurd hk (by simp)
  | m :: rest, i, 0, _, _, hf => by
    have hf0 : (m.truthy && canSend i) = false := by simpa using hf
    simp [drainLoop, hf0, queueUnshift]
  | m :: rest, i, k + 1, hk, hb, hf => by
    have hm : (m.truthy && canSend i) = true := by
      simpa using hb 0 (Nat.succ_pos k)
    have ih := drainLoop_fail canSend rest (i + 1) k (by simpa using hk)
      (fun j hj => by
        have h1 := hb (j + 1) (Nat.succ_lt_succ hj)
        have e : i + (j + 1) = i + 1 + j := by omega
        simpa [e] using h1)
      (by
        have e : i + (k + 1) = i + 1 + k := by omega
        simpa [e] using hf)
    simp [drainLoop, hm, ih]

/-- Claim C3 (confirmed): when every queued message is truthy and the
    socket is OPEN at each write, the onopen drain writes every queued
    message as serialized JSON in original FIFO order and leaves the
    queue empty; and the "open" event is published after the drain
    attempt regardless of the drain's outcome. -/
theorem c3_onopen_drain (canSend : Nat → Bool) (q : List Json)
    (htruthy : ∀ m ∈ q, m.truthy = true)
    (hsend : ∀ j, j < q.length → canSend j = true) :
    wsOnopen canSend q =
      { wire := q.map Json.stringify, queue := [], openPublished := true } ∧
    (∀ (cs : Nat → Bool) (q2 : List Json), (wsOnopen cs q2).openPublished = true) := by
  constructor
  · have h := drainLoop_all canSend q 0 htruthy (fun j hj => by simpa using hsend j hj)
    simp [wsOnopen, h]
  · intro cs q2
    rfl

/-- Witness for C3 with a two-message queue and a socket that stays
    OPEN: both messages are written serialized in order and the queue
    is empty. -/
theorem c3_onopen_drain_witness :
    wsOnopen (fun _ => true) [Json.bool true, Json.str "a"] =
      { wire := ["true", "\"a\""], queue := [], openPublished := true } := by
  have h := (c3_onopen_drain (fun _ => true) [Json.bool true, Json.str "a"]
    (by intro m hm; fin_cases hm <;> rfl) (fun _ _ => rfl)).1
  rw [h]
  rfl

/-- Claim C4 (confirmed): when the first k writes succeed and the write
    at index k fails, the drain stops there — only the first k messages
    are written — and the queue afterward is the failed message followed
    by the remaining messages in their original relative order. -/
theorem c4_drain_failure (canSend : Nat → Bool) (q : List Json) (k : Nat) (hk : k < q.length)
    (hbefore : ∀ j (hj : j < k), ((q.get ⟨j, hj.trans hk⟩).truthy && canSend j) = true)
    (hfail : ((q.get ⟨k, hk⟩).truthy && canSend k) = false) :
    wsOnopen canSend q =
      { wire := (q.take k).map Json.stringify,
        queue := q.get ⟨k, hk⟩ :: q.drop (k + 1),
        openPublished := true } := by
  have h := drainLoop_fail canSend q 0 k hk
    (fun j hj => by simpa using hbefore j hj)
    (by simpa using hfail)
  have hdrop : q.drop k = q.get ⟨k, hk⟩ :: q.drop (k + 1) :=
    List.drop_eq_getElem_cons hk
  simp only [wsOnopen, h]
  rw [hdrop]

/-- Witness for C4: the second message is null (falsy), so its write
    fails; only the first message is written and the queue afterward
    starts with the failed message. -/
theorem c4_drain_failure_witness :
    wsOnopen (fun _ => true) [Json.bool true, Json.null] =
      { wire := ["true"], queue := [Json.null], openPublished := true } := by
  have h := c4_drain_failure (fun _ => true) [Json.bool true, Json.null] 1 (by decide)
    (fun j hj => by
      have hj0 : j = 0 := by omega
      subst hj0
      rfl)
    rfl
  rw [h]
  rfl

/-- The element at the index just past a prefix C in C ++ a :: D is a. -/
theorem get_append_mid {α : Type} (C : List α) (a : α) (D : List α)
    (h : C.length < (C ++ a :: D).length) :
    (C ++ a :: D).get ⟨C.length, h⟩ = a := by
  induction C with
  | nil => rfl
  | cons c C ih =>
      simpa using ih (by simp only [List.length_append, List.length_cons]; omega)

/-- Dropping a prefix's length plus n from p ++ s drops n from s. -/
theorem drop_append_len {α : Type} : ∀ (p s : List α) (n : Nat),
    (p ++ s).drop (p.length + n) = s.drop n
  | [], _, _ => by simp
  | a :: p, s, n => by
    have h1 : (a :: p).length + n = (p.length + n) + 1 := by
      simp only [List.length_cons]
      omega
    rw [List.cons_append, h1, List.drop_succ_cons]
    exact drop_append_len p s n

/-- One step of a forEach pass when the index is in bounds: invoke the
    listener at the index, apply its unsubscriptions to the live array,
    and continue from the next index. -/
theorem forEachRun_succ (act : Nat → List Nat) (fuel k : Nat) (arr : List Nat)
    (h : k < arr.length) :
    forEachRun act (fuel + 1) k arr =
      ((arr.get ⟨k, h⟩) ::
        (forEachRun act fuel (k + 1) (applyUnsubs arr (act (arr.get ⟨k, h⟩)))).1,
       (forEachRun act fuel (k + 1) (applyUnsubs arr (act (arr.get ⟨k, h⟩)))).2) := by
  simp [forEachRun, h]

/-- A forEach pass in which no listener of the array mutates it visits
    the elements from index k onward in order and leaves the array
    unchanged. -/
theorem forEachRun_noact (act : Nat → List Nat) :
    ∀ (fuel k : Nat) (arr : List Nat),
      (∀ x ∈ arr, act x = []) → arr.length ≤ k + fuel →
      forEachRun act fuel k arr = (arr.drop k, arr)
  | 0, k, arr, _, hle => by
    have hd : arr.drop k = [] := List.drop_eq_nil_of_le (by omega)
    simp [forEachRun, hd]
  | fuel + 1, k, arr, hact, hle => by
    by_cases h : k < arr.length
    · have ha : act (arr.get ⟨k, h⟩) = [] := hact _ (List.get_mem arr k h)
      have ih := forEachRun_noact act fuel (k + 1) arr hact (by omega)
      have hd : arr.drop k = arr.get ⟨k, h⟩ :: arr.drop (k + 1) :=
        List.drop_eq_getElem_cons h
      rw [forEachRun_succ act fuel k arr h, ha]
      simp only [applyUnsubs, List.foldl_nil]
      rw [ih, hd]
    · have hd : arr.drop k = [] := List.drop_eq_nil_of_le (by omega)
      simp [forEachRun, h, hd]

/-- A forEach pass walks through a block p of non-mutating listeners
    sitting just past the already-visited prefix C, invoking each in
    order, and continues past the block. -/
theorem forEachRun_walk (act : Nat → List Nat) :
    ∀ (p C D : List Nat) (fuel : Nat),
      (∀ x ∈ p, act x = []) →
      forEachRun act (p.length + fuel) C.length (C ++ (p ++ D)) =
        (p ++ (forEachRun act fuel (C ++ p).length ((C ++ p) ++ D)).1,
         (forEachRun act fuel (C ++ p).length ((C ++ p) ++ D)).2)
  | [], C, D, fuel, _ => by simp
  | a :: p, C, D, fuel, hp => by
    have hlt : C.length < (C ++ (a :: p ++ D)).length := by
      simp only [List.length_append, List.length_cons]
      omega
    have hget : (C ++ (a :: p ++ D)).get ⟨C.length, hlt⟩ = a :=
      get_append_mid C a (p ++ D) hlt
    have ha : act a = [] := hp a (List.mem_cons_self a p)
    have hfuel : (a :: p).length + fuel = (p.length + fuel) + 1 := by
      simp only [List.length_cons]
      omega
    have ih := forEachRun_walk act p (C ++ [a]) D fuel
      (fun x hx => hp x (List.mem_cons_of_mem a hx))
    rw [hfuel, forEachRun_succ act (p.length + fuel) C.length _ hlt, hget, ha]
    simp only [applyUnsubs, List.foldl_nil]
    have harr : C ++ (a :: p ++ D) = (C ++ [a]) ++ (p ++ D) := by simp
    have hk1 : C.length + 1 = (C ++ [a]).length := by simp
    rw [harr, hk1, ih]
    have h2 : (C ++ [a]) ++ p = C ++ a :: p := by simp
    rw [h2]
    simp

/-- Removing the first occurrence of l from p ++ l :: s, when l does not
    occur in p, yields p ++ s (the indexOf-plus-splice unsubscribe). -/
theorem removeFirst_append (l : Nat) :
    ∀ (p s : List Nat), l ∉ p → removeFirst (p ++ l :: s) l = p ++ s
  | [], s, _ => by simp [removeFirst]
  | a :: p, s, h => by
    have hne : a ≠ l := fun e => h (e ▸ List.mem_cons_self a p)
    have ih := removeFirst_append l p s (fun hm => h (List.mem_cons_of_mem a hm))
    simp [removeFirst, hne, ih]

/-- A publish pass over p ++ l :: s in which only l unsubscribes (it
    removes itself during its own invocation): everything in p is
    invoked, then l, then the listener immediately after l is skipped
    because the splice shifted the array under the forEach index, and
    the rest of s is invoked; the final registry is p ++ s. -/
theorem jsForEach_skip (act : Nat → List Nat) (p s : List Nat) (l : Nat)
    (hl : act l = [l]) (hp : ∀ x ∈ p, act x = []) (hs : ∀ x ∈ s, act x = [])
    (hlp : l ∉ p) :
    jsForEach act (p ++ l :: s) = (p ++ l :: s.drop 1, p ++ s) := by
  unfold jsForEach
  have hlen : (p ++ l :: s).length = p.length + (s.length + 1) := by
    simp only [List.length_append, List.length_cons]
  rw [hlen]
  have hwalk := forEachRun_walk act p [] (l :: s) (s.length + 1) hp
  simp only [List.nil_append, List.length_nil] at hwalk
  rw [hwalk]
  have hlt : p.length < (p ++ l :: s).length := by
    simp only [List.length_append, List.length_cons]
    omega
  rw [forEachRun_succ act s.length p.length _ hlt, get_append_mid p l s hlt, hl]
  have hrem : applyUnsubs (p ++ l :: s) [l] = p ++ s := by
    simp only [applyUnsubs, List.foldl_cons, List.foldl_nil]
    exact removeFirst_append l p s hlp
  rw [hrem]
  have hnoact : ∀ x ∈ p ++ s, act x = [] := by
    intro x hx
    rcases List.mem_append.mp hx with h | h
    · exact hp x h
    · exact hs x h
  rw [forEachRun_noact act s.length (p.length + 1) (p ++ s) hnoact
    (by simp only [List.length_append]; omega)]
  rw [drop_append_len p s 1]

/-- Claim C8 counterexample: with listeners [0, 1, 2] where listener 0
    unsubscribes itself during its own invocation, the splice shifts the
    array under the live forEach index, so listener 1 — registered at
    the start of the publish and unsubscribed by nobody — is not invoked
    in that pass (only 0 and 2 are). -/
theorem c8_publish_counterexample :
    (jsForEach cexAct [0, 1, 2]).1 = [0, 2] ∧
    (1 : Nat) ∈ [0, 1, 2] ∧
    cexAct 0 = [0] ∧ cexAct 1 = [] ∧ cexAct 2 = [] ∧
    (1 : Nat) ∉ (jsForEach cexAct [0, 1, 2]).1 := by
  decide

/-- Claim C8 (corrected): publishes are total (never throw) and invoke
    listeners in registration order; when no listener unsubscribes
    during the pass every registered listener is invoked exactly once
    and the registry is unchanged; but when a listener unsubscribes
    itself during its own invocation, the listener immediately following
    it in registration order is skipped in that pass (every other
    listener of the pass is invoked exactly once, in order); afterward
    the unsubscribed listener is gone from the registry and is not
    invoked on a subsequent publish. -/
theorem c8_publish_amended (act : Nat → List Nat) (p s : List Nat) (l : Nat)
    (hl : act l = [l]) (hp : ∀ x ∈ p, act x = []) (hs : ∀ x ∈ s, act x = [])
    (hlp : l ∉ p) (hls : l ∉ s) :
    (∀ arr : List Nat, (∀ x ∈ arr, act x = []) → jsForEach act arr = (arr, arr)) ∧
    jsForEach act (p ++ l :: s) = (p ++ l :: s.drop 1, p ++ s) ∧
    l ∉ (jsForEach act (p ++ s)).1 := by
  have hnoact : ∀ arr : List Nat, (∀ x ∈ arr, act x = []) →
      jsForEach act arr = (arr, arr) := by
    intro arr h
    unfold jsForEach
    rw [forEachRun_noact act arr.length 0 arr h (by omega)]
    simp
  refine ⟨hnoact, jsForEach_skip act p s l hl hp hs hlp, ?_⟩
  have hps : ∀ x ∈ p ++ s, act x = [] := by
    intro x hx
    rcases List.mem_append.mp hx with h | h
    · exact hp x h
    · exact hs x h
  rw [hnoact (p ++ s) hps]
  show l ∉ p ++ s
  intro hmem
  rcases List.mem_append.mp hmem with h | h
  · exact hlp h
  · exact hls h

/-- Witness for C8 (amended): in [5, 0, 7, 9] listener 0 unsubscribes
    itself; the pass invokes 5, 0 and 9 (skipping 7), leaves [5, 7, 9]
    registered, and 0 is not invoked by a subsequent publish. -/
theorem c8_publish_amended_witness :
    jsForEach cexAct [5, 0, 7, 9] = ([5, 0, 9], [5, 7, 9]) ∧
    (0 : Nat) ∉ (jsForEach cexAct [5, 7, 9]).1 := by
  have h := c8_publish_amended cexAct [5] [7, 9] 0 rfl (by decide) (by decide)
    (by decide) (by decide)
  exact ⟨by simpa using h.2.1, h.2.2⟩

end DurableWS
